import Mathlib

/-!
Verification of the streaming chat-completion clients of the super-emma-ext
extension: `LMStudioClient` (src/lib/lm-studio-client.ts), `OllamaClient`
(src/lib/settings.ts) and `OpenAILikeClient`, together with the chat UI's
error handler.

Decoded response text is modelled as `List Char` (the clients operate on
chunks already decoded by `TextDecoder`).  Parsed JSON values are modelled by
the inductive `Json`; the external `JSON.parse` is a parameter
`parse : Str → Option Json`, where `none` stands for a thrown `SyntaxError`.
JavaScript truthiness and string coercion are modelled explicitly.
-/

namespace SuperEmma

/-- Decoded text, as the clients see it after `TextDecoder.decode`. -/
abbrev Str := List Char

/-- Character list of a Lean string literal. -/
def strOf (s : String) : Str := s.data

/-- A JavaScript value produced by `JSON.parse` (numbers restricted to the
integers actually occurring in this development). -/
inductive Json where
  | null
  | bool (b : Bool)
  | num (n : Int)
  | str (s : Str)
  | arr (elems : List Json)
  | obj (fields : List (Str × Json))

/-- Property lookup on an object; `none` models JavaScript `undefined`.
Access on a non-object yields `undefined` (for a `null`/`undefined` base the
source's access would throw, but every such access in the streaming loops sits
inside a `try` whose `catch` discards the whole frame, which is observationally
the same as yielding no field). -/
def Json.get : Json → Str → Option Json
  | .obj fields, k => (fields.find? (fun f => f.1 == k)).map (fun f => f.2)
  | _, _ => none

/-- Element access `x?.[0]`: index 0 of an array, property "0" of an object,
`undefined` otherwise. -/
def Json.idx0 : Json → Option Json
  | .arr xs => xs.get? 0
  | .obj fields => (fields.find? (fun f => f.1 == strOf "0")).map (fun f => f.2)
  | _ => none

/-- JavaScript truthiness of a value. -/
def Json.truthy : Json → Bool
  | .null => false
  | .bool b => b
  | .num n => n != 0
  | .str s => !s.isEmpty
  | .arr _ => true
  | .obj _ => true

/-- Truthiness of a possibly-`undefined` value (`undefined` is falsy). -/
def truthy? : Option Json → Bool
  | none => false
  | some j => j.truthy

mutual
/-- JavaScript string coercion, as performed by `fullContent += content`. -/
def Json.toJSStr : Json → Str
  | .null => strOf "null"
  | .bool b => if b then strOf "true" else strOf "false"
  | .num n => strOf (toString n)
  | .str s => s
  | .arr xs => List.intercalate (strOf ",") (jsArrElems xs)
  | .obj _ => strOf "[object Object]"

/-- `Array.prototype.toString` element rendering (`null` renders empty). -/
def jsArrElems : List Json → List Str
  | [] => []
  | .null :: js => [] :: jsArrElems js
  | j :: js => j.toJSStr :: jsArrElems js
end

/-- Coercion of a possibly-`undefined` value (guarded by truthiness at every
use site, so the `undefined` branch is never reached with effect). -/
def coerce? : Option Json → Str
  | none => strOf "undefined"
  | some j => j.toJSStr

/-- `chunk.split('\n')` on decoded text: the list of newline-separated
segments, empty segments included, never empty as a list. -/
def splitNl : Str → List Str
  | [] => [[]]
  | c :: cs =>
    match splitNl cs with
    | [] => [[]]
    | l :: ls => if c = '\n' then [] :: l :: ls else (c :: l) :: ls

/-- JavaScript `String.prototype.trim` whitespace. -/
def isJsWs (c : Char) : Bool :=
  c == ' ' || c == '\t' || c == '\n' || c == '\r' || c == '\x0b' || c == '\x0c'

/-- `line.trim()`. -/
def jsTrim (s : Str) : Str :=
  ((s.dropWhile isJsWs).reverse.dropWhile isJsWs).reverse

/-- One recorded `onToken(content || '', reasoning)` invocation: the first
argument as passed (the raw truthy content value, or `''`), and the raw
`reasoning` value (`none` models `undefined`). -/
structure TokenEvent where
  token : Json
  reasoning : Option Json

/-- Value of the JavaScript expression `content || ''`. -/
def jsOrEmptyStr (content : Option Json) : Json :=
  if truthy? content then content.getD (.str []) else .str []

/-- Running accumulator of a streaming `sendMessage`: the two mutable strings
`fullContent`/`fullReasoning` plus the trace of `onToken` invocations. -/
structure StreamAcc where
  fullContent : Str
  fullReasoning : Str
  events : List TokenEvent

/-- Both accumulators start empty, with no callback invoked yet. -/
def StreamAcc.init : StreamAcc := ⟨[], [], []⟩

/-- The accumulation statements shared verbatim by all three clients:
`if (content) fullContent += content; if (reasoning) fullReasoning += reasoning;
if (content || reasoning) onToken(content || '', reasoning);`. -/
def applyDelta (st : StreamAcc) (content reasoning : Option Json) : StreamAcc :=
  { fullContent :=
      if truthy? content then st.fullContent ++ coerce? content else st.fullContent
    fullReasoning :=
      if truthy? reasoning then st.fullReasoning ++ coerce? reasoning else st.fullReasoning
    events :=
      if truthy? content || truthy? reasoning
      then st.events ++ [⟨jsOrEmptyStr content, reasoning⟩]
      else st.events }

/-- The value a completed streaming `sendMessage` resolves with:
`{ content: fullContent, reasoning_content: fullReasoning || undefined }`. -/
structure StreamResult where
  content : Json
  reasoning_content : Option Json

/-- Conversion of the final accumulator into the resolved value. -/
def StreamAcc.result (st : StreamAcc) : StreamResult :=
  ⟨.str st.fullContent,
   if st.fullReasoning.isEmpty then none else some (.str st.fullReasoning)⟩

/-- How the response body ended: normal end of stream, or rejection of
`reader.read()` because the caller's `AbortSignal` fired. -/
inductive BodyEnd where
  | eof
  | abort
deriving DecidableEq

/-- An HTTP response as the clients observe it: `response.ok`, the decoded
text chunks the body reader delivers, and how the body ends. -/
structure HttpResponse where
  ok : Bool
  chunks : List Str
  ending : BodyEnd

/-- Outcome of the `fetch` call itself. -/
inductive FetchOutcome where
  | netError
  | success (r : HttpResponse)

/-- The errors a `sendMessage`/`getModels` call can reject with, identified
the way the UI identifies them: by the JavaScript `error.name`. -/
inductive SendError where
  | abortError
  | httpError
  | fetchError
  | jsonError
  | typeError
deriving DecidableEq

/-- JavaScript `error.name` of each rejection. -/
def SendError.name : SendError → Str
  | .abortError => strOf "AbortError"
  | .httpError => strOf "Error"
  | .fetchError => strOf "TypeError"
  | .jsonError => strOf "SyntaxError"
  | .typeError => strOf "TypeError"

namespace LMStudioClient

/-- The `'data: '` marker tested by `line.startsWith('data: ')`. -/
def dataMarker : Str := strOf "data: "

/-- Field chain `parsed.choices?.[0]?.delta?.<field>`
(lm-studio-client.ts lines 103-104). -/
def deltaField (parsed : Json) (field : Str) : Option Json :=
  (((parsed.get (strOf "choices")).bind Json.idx0).bind
    (fun j => j.get (strOf "delta"))).bind (fun j => j.get field)

/-- Processing of one line of a decoded chunk
(lm-studio-client.ts lines 96-121): lines not starting with `'data: '` are
ignored, the `[DONE]` sentinel is skipped with `continue`, a frame whose
`JSON.parse` throws is skipped, and otherwise the shared accumulation
statements run. -/
def lineStep (parse : Str → Option Json) (st : StreamAcc) (line : Str) : StreamAcc :=
  if dataMarker.isPrefixOf line then
    let data := line.drop 6
    if data = strOf "[DONE]" then st
    else
      match parse data with
      | none => st
      | some parsed =>
          applyDelta st
            (deltaField parsed (strOf "content"))
            (deltaField parsed (strOf "reasoning_content"))
  else st

/-- Processing of one decoded chunk (lm-studio-client.ts lines 93-122):
`chunk.split('\n')` and the `for` loop over the lines.  No text is carried
over to the next chunk. -/
def chunkStep (parse : Str → Option Json) (st : StreamAcc) (chunk : Str) : StreamAcc :=
  (splitNl chunk).foldl (lineStep parse) st

/-- The read loop from a given accumulator state. -/
def runFrom (parse : Str → Option Json) (st : StreamAcc) (chunks : List Str) : StreamAcc :=
  chunks.foldl (chunkStep parse) st

/-- The whole read loop of the streaming path (lm-studio-client.ts 82-126). -/
def run (parse : Str → Option Json) (chunks : List Str) : StreamAcc :=
  runFrom parse .init chunks

/-- The streaming `sendMessage` (lm-studio-client.ts 57-144) as observed by
its caller: the settled outcome plus the trace of `onToken` invocations.
`fetch` rejection and non-2xx statuses reject before any chunk is read; an
abort surfaces as the `AbortError` rejection of the pending `reader.read()`,
re-thrown by the outer `catch`. -/
def sendMessageStream (parse : Str → Option Json) (f : FetchOutcome) :
    Except SendError StreamResult × List TokenEvent :=
  match f with
  | .netError => (.error .fetchError, [])
  | .success r =>
    if r.ok = false then (.error .httpError, [])
    else
      let st := run parse r.chunks
      match r.ending with
      | .eof => (.ok st.result, st.events)
      | .abort => (.error .abortError, st.events)

end LMStudioClient

namespace OllamaClient

/-- Field chain `data.message?.<field>` (settings.ts lines 876-877). -/
def messageField (data : Json) (field : Str) : Option Json :=
  (data.get (strOf "message")).bind (fun j => j.get field)

/-- Loop state of the Ollama streaming path: the shared accumulator plus
whether the early `return` on `data.done` has fired. -/
structure LoopState where
  acc : StreamAcc
  finished : Bool

/-- Loop start: empty accumulator, `done` not yet seen. -/
def LoopState.init : LoopState := ⟨.init, false⟩

/-- Processing of one (non-blank) line (settings.ts lines 873-898): a line
whose `JSON.parse` throws is skipped with a warning, otherwise the shared
accumulation statements run and `if (data.done)` triggers the early `return`.
Once `finished`, no later line is processed — the `return` has exited the
loops. -/
def lineStep (parse : Str → Option Json) (st : LoopState) (line : Str) : LoopState :=
  if st.finished then st
  else
    match parse line with
    | none => st
    | some data =>
        let acc := applyDelta st.acc
          (messageField data (strOf "content"))
          (messageField data (strOf "reasoning_content"))
        if truthy? (data.get (strOf "done")) then ⟨acc, true⟩ else ⟨acc, false⟩

/-- Processing of one decoded chunk (settings.ts lines 866-871):
`chunk.split('\n').filter(line => line.trim())` then the loop over lines. -/
def chunkStep (parse : Str → Option Json) (st : LoopState) (chunk : Str) : LoopState :=
  ((splitNl chunk).filter (fun l => !(jsTrim l).isEmpty)).foldl (lineStep parse) st

/-- The read loop from a given state. -/
def runFrom (parse : Str → Option Json) (st : LoopState) (chunks : List Str) : LoopState :=
  chunks.foldl (chunkStep parse) st

/-- The whole read loop of the streaming path (settings.ts 858-905). -/
def run (parse : Str → Option Json) (chunks : List Str) : LoopState :=
  runFrom parse .init chunks

/-- The streaming `sendMessage` of `OllamaClient` (settings.ts 834-923).
When `data.done` fired, the function returned before the next `reader.read()`,
so a pending abort is never observed in that case. -/
def sendMessageStream (parse : Str → Option Json) (f : FetchOutcome) :
    Except SendError StreamResult × List TokenEvent :=
  match f with
  | .netError => (.error .fetchError, [])
  | .success r =>
    if r.ok = false then (.error .httpError, [])
    else
      let st := run parse r.chunks
      if st.finished then (.ok st.acc.result, st.acc.events)
      else
        match r.ending with
        | .eof => (.ok st.acc.result, st.acc.events)
        | .abort => (.error .abortError, st.acc.events)

end OllamaClient

namespace OpenAILikeClient

/-- The streaming loop of `OpenAILikeClient.sendMessage` is verbatim
identical to the LM Studio one (same SSE framing, same field chains, same
accumulation statements), so it is embedded by the same function. -/
def run : (Str → Option Json) → List Str → StreamAcc := LMStudioClient.run

/-- The streaming `sendMessage` of `OpenAILikeClient`, identical in all
modelled respects to the LM Studio one. -/
def sendMessageStream : (Str → Option Json) → FetchOutcome →
    Except SendError StreamResult × List TokenEvent := LMStudioClient.sendMessageStream

end OpenAILikeClient

/-- Member access `base.k`: throws a `TypeError` (modelled by the outer
`none`) when the base is `null` or `undefined`; yields `undefined` for any
other non-object base. -/
def jsAccess : Option Json → Str → Option (Option Json)
  | none, _ => none
  | some .null, _ => none
  | some (.obj fields), k => some ((fields.find? (fun f => f.1 == k)).map (fun f => f.2))
  | some _, _ => some none

/-- Optional member access `base?.k`: short-circuits `null`/`undefined` to
`undefined` instead of throwing. -/
def jsAccessOpt : Option Json → Str → Option (Option Json)
  | none, _ => some none
  | some .null, _ => some none
  | some (.obj fields), k => some ((fields.find? (fun f => f.1 == k)).map (fun f => f.2))
  | some _, _ => some none

/-- Index access `base[0]`: throws on `null`/`undefined` base, yields element
0 of an array, property "0" of an object, `undefined` otherwise. -/
def jsIndex0 : Option Json → Option (Option Json)
  | none => none
  | some .null => none
  | some (.arr xs) => some (xs.get? 0)
  | some (.obj fields) => some ((fields.find? (fun f => f.1 == strOf "0")).map (fun f => f.2))
  | some _ => some none

/-- Outcome of a `fetch` whose body is consumed in one piece by
`response.json()`: the request may fail, and the body may fail to parse
(`body = none` models the rejection of `response.json()`). -/
inductive FetchJsonOutcome where
  | netError
  | success (ok : Bool) (body : Option Json)

namespace LMStudioClient

/-- The non-streaming extraction (lm-studio-client.ts lines 134-138):
`{ content: data.choices[0]?.message?.content || '',
   reasoning_content: data.choices[0]?.message?.reasoning_content }`.
The outer `none` models a thrown `TypeError` (e.g. `data.choices` on a
`null` document), which the outer `catch` re-throws. -/
def nonStreamingExtract (data : Json) : Option StreamResult := do
  let choices ← jsAccess (some data) (strOf "choices")
  let c0 ← jsIndex0 choices
  let msg ← jsAccessOpt c0 (strOf "message")
  let content ← jsAccessOpt msg (strOf "content")
  let reasoning ← jsAccessOpt msg (strOf "reasoning_content")
  pure ⟨jsOrEmptyStr content, reasoning⟩

/-- The non-streaming `sendMessage` path (no `onToken` supplied): awaits the
body, parses it once, extracts from the first choice's message.  The empty
event trace records that the branch contains no `onToken` call. -/
def sendMessageNoStream (f : FetchJsonOutcome) :
    Except SendError StreamResult × List TokenEvent :=
  match f with
  | .netError => (.error .fetchError, [])
  | .success ok body =>
    if ok = false then (.error .httpError, [])
    else
      match body with
      | none => (.error .jsonError, [])
      | some data =>
        match nonStreamingExtract data with
        | none => (.error .typeError, [])
        | some r => (.ok r, [])

/-- Element mapping `xs.map(m => m.<k>)`: JavaScript property access on each
element, propagating the `TypeError` thrown on a `null` element. -/
def mapField (k : Str) : List Json → Option (List (Option Json))
  | [] => some []
  | j :: js => do
    let v ← jsAccess (some j) k
    let rest ← mapField k js
    pure (v :: rest)

/-- `LMStudioClient.getModels` (lm-studio-client.ts 43-55): any failure —
`fetch` rejection, non-2xx status, body parse failure, or a `TypeError` from
`data.data.map(model => model.id)` — is logged and re-thrown to the caller. -/
def getModels (f : FetchJsonOutcome) : Except SendError (List (Option Json)) :=
  match f with
  | .netError => .error .fetchError
  | .success ok body =>
    if ok = false then .error .httpError
    else
      match body with
      | none => .error .jsonError
      | some data =>
        match jsAccess (some data) (strOf "data") with
        | none => .error .typeError
        | some none => .error .typeError
        | some (some (.arr xs)) =>
          match mapField (strOf "id") xs with
          | none => .error .typeError
          | some ids => .ok ids
        | some (some _) => .error .typeError

end LMStudioClient

namespace OpenAILikeClient

/-- The non-streaming path of `OpenAILikeClient.sendMessage` is verbatim
identical to the LM Studio one. -/
def sendMessageNoStream : FetchJsonOutcome →
    Except SendError StreamResult × List TokenEvent := LMStudioClient.sendMessageNoStream

/-- `OpenAILikeClient.getModels` re-throws on the same failures as the LM
Studio one and differs only in headers, which the model does not observe. -/
def getModels : FetchJsonOutcome → Except SendError (List (Option Json)) :=
  LMStudioClient.getModels

end OpenAILikeClient

namespace OllamaClient

/-- `OllamaClient.getModels` (settings.ts 814-833): the whole body sits in a
`try` whose `catch` returns `[]`, so every failure — `fetch` rejection,
non-2xx status (the `throw` is caught by the same `catch`), body parse
failure, or a `TypeError` inside `data.models?.map((model) => model.name)` —
resolves with the empty list; `data.models` being absent or not an array
also yields `[]` (either via `|| []` or via the caught `TypeError` on
`.map`). -/
def getModels (f : FetchJsonOutcome) : List (Option Json) :=
  match f with
  | .netError => []
  | .success ok body =>
    if ok = false then []
    else
      match body with
      | none => []
      | some data =>
        match jsAccess (some data) (strOf "models") with
        | none => []
        | some none => []
        | some (some (.arr xs)) =>
          match LMStudioClient.mapField (strOf "name") xs with
          | none => []
          | some names => names
        | some (some _) => []

end OllamaClient

namespace ChatInterface

/-- The `catch` of `handleSendMessage` (chat component, part_005 lines
360-371): a visible error message is appended only when the caught error is
an `Error` whose `name` is not `'AbortError'`.  Returns whether a message is
appended. -/
def appendsErrorMessage (e : SendError) : Bool :=
  !(e.name == strOf "AbortError")

end ChatInterface

/-! Concrete fixture: a handful of frame bodies with the values `JSON.parse`
gives them, used to instantiate the theorems.  In the body strings the brace
characters are written as the escapes `\x7b` and `\x7d`. -/

/-- Body `{"choices":[{"delta":{"content":"Hel"}}]}`. -/
def bodyHel : Str :=
  strOf "\x7b\"choices\":[\x7b\"delta\":\x7b\"content\":\"Hel\"\x7d\x7d]\x7d"

/-- Body `{"choices":[{"delta":{"content":"lo"}}]}`. -/
def bodyLo : Str :=
  strOf "\x7b\"choices\":[\x7b\"delta\":\x7b\"content\":\"lo\"\x7d\x7d]\x7d"

/-- Body `{"choices":[{"delta":{"content":"Hello"}}]}`. -/
def bodyHello : Str :=
  strOf "\x7b\"choices\":[\x7b\"delta\":\x7b\"content\":\"Hello\"\x7d\x7d]\x7d"

/-- Body `{"choices":[{"delta":{"content":5}}]}` — content is a JSON number. -/
def bodyNum : Str :=
  strOf "\x7b\"choices\":[\x7b\"delta\":\x7b\"content\":5\x7d\x7d]\x7d"

/-- Body `{"choices":[{"delta":{"reasoning_content":"Think"}}]}`. -/
def bodyThink : Str :=
  strOf "\x7b\"choices\":[\x7b\"delta\":\x7b\"reasoning_content\":\"Think\"\x7d\x7d]\x7d"

/-- NDJSON line `{"message":{"content":"Hi"},"done":false}`. -/
def lineHi : Str :=
  strOf "\x7b\"message\":\x7b\"content\":\"Hi\"\x7d,\"done\":false\x7d"

/-- NDJSON line `{"message":{"content":"!"},"done":true}`. -/
def lineBang : Str :=
  strOf "\x7b\"message\":\x7b\"content\":\"!\"\x7d,\"done\":true\x7d"

/-- NDJSON line `{"message":{"content":"XX"},"done":false}` (a third line
that must never be parsed once `done` has fired). -/
def lineAfter : Str :=
  strOf "\x7b\"message\":\x7b\"content\":\"XX\"\x7d,\"done\":false\x7d"

/-- First half of `bodyHello` when the frame is cut mid-line — not valid
JSON on its own. -/
def bodyHelloCutA : Str := strOf "\x7b\"choices\":[\x7b\"delta\":\x7b\"con"

/-- Body `{"choices":[{"delta":{"content":""}}]}` — content present but
empty (falsy). -/
def bodyEmpty : Str :=
  strOf "\x7b\"choices\":[\x7b\"delta\":\x7b\"content\":\"\"\x7d\x7d]\x7d"

/-- Parsed value of the non-streaming document
`{"choices":[{"message":{"content":"X","reasoning_content":"Y"}}]}`. -/
def docXY : Json :=
  .obj [(strOf "choices", .arr [.obj [(strOf "message",
    .obj [(strOf "content", .str (strOf "X")),
          (strOf "reasoning_content", .str (strOf "Y"))])]])]

/-- Parsed value of a non-streaming document whose first choice's message
has no `content` field. -/
def docNoContent : Json :=
  .obj [(strOf "choices", .arr [.obj [(strOf "message", .obj [])]])]

/-- Parsed value of a one-choice delta frame with a `content` field. -/
def deltaContentJson (v : Json) : Json :=
  .obj [(strOf "choices", .arr [.obj [(strOf "delta", .obj [(strOf "content", v)])]])]

/-- Parsed value of a one-choice delta frame with a `reasoning_content`
field. -/
def deltaReasoningJson (v : Json) : Json :=
  .obj [(strOf "choices", .arr [.obj [(strOf "delta",
    .obj [(strOf "reasoning_content", v)])]])]

/-- Parsed value of an Ollama NDJSON frame. -/
def ollamaFrameJson (content : Json) (done : Bool) : Json :=
  .obj [(strOf "message", .obj [(strOf "content", content)]),
        (strOf "done", .bool done)]

/-- Fixture standing in for `JSON.parse`: it agrees with `JSON.parse` on
every body it maps, and every other string this development feeds it
(`[DONE]`, the cut fragments, `not json`) is not valid JSON, on which
`JSON.parse` throws. -/
def parseFix (s : Str) : Option Json :=
  if s = bodyHel then some (deltaContentJson (.str (strOf "Hel")))
  else if s = bodyLo then some (deltaContentJson (.str (strOf "lo")))
  else if s = bodyHello then some (deltaContentJson (.str (strOf "Hello")))
  else if s = bodyNum then some (deltaContentJson (.num 5))
  else if s = bodyThink then some (deltaReasoningJson (.str (strOf "Think")))
  else if s = lineHi then some (ollamaFrameJson (.str (strOf "Hi")) false)
  else if s = lineBang then some (ollamaFrameJson (.str (strOf "!")) true)
  else if s = lineAfter then some (ollamaFrameJson (.str (strOf "XX")) false)
  else if s = bodyEmpty then some (deltaContentJson (.str []))
  else none

/-- Whether a possibly-`undefined` field value is a string or absent. -/
def isStrOrAbsent : Option Json → Bool
  | none => true
  | some (.str _) => true
  | some _ => false

/-- The string a string-or-absent field value denotes (empty when absent). -/
def fieldStr : Option Json → Str
  | some (.str s) => s
  | _ => []

namespace OllamaClient

/-- The non-streaming extraction of `OllamaClient.sendMessage`
(settings.ts 912-916): `{ content: data.message?.content || '',
reasoning_content: data.message?.reasoning_content }`. -/
def nonStreamingExtract (data : Json) : Option StreamResult := do
  let msg ← jsAccess (some data) (strOf "message")
  let content ← jsAccessOpt msg (strOf "content")
  let reasoning ← jsAccessOpt msg (strOf "reasoning_content")
  pure ⟨jsOrEmptyStr content, reasoning⟩

/-- The non-streaming `sendMessage` path of `OllamaClient`. -/
def sendMessageNoStream (f : FetchJsonOutcome) :
    Except SendError StreamResult × List TokenEvent :=
  match f with
  | .netError => (.error .fetchError, [])
  | .success ok body =>
    if ok = false then (.error .httpError, [])
    else
      match body with
      | none => (.error .jsonError, [])
      | some data =>
        match nonStreamingExtract data with
        | none => (.error .typeError, [])
        | some r => (.ok r, [])

end OllamaClient

namespace LMStudioClient

/-- One SSE frame carrying the body `d`, delivered whole in its own chunk. -/
def mkChunk (d : Str) : Str := dataMarker ++ d ++ ['\n']

/-- Declarative view of what one frame body yields for a delta field:
nothing for the `[DONE]` sentinel or an unparsable body, otherwise the
`choices?.[0]?.delta?.<field>` value. -/
def frameField (parse : Str → Option Json) (field d : Str) : Option Json :=
  if d = strOf "[DONE]" then none
  else
    match parse d with
    | none => none
    | some parsed => deltaField parsed field

/-- Declarative view of what one frame body appends to an accumulator
string: the coerced field value when truthy, nothing otherwise. -/
def contrib (parse : Str → Option Json) (field d : Str) : Str :=
  if truthy? (frameField parse field d) then coerce? (frameField parse field d) else []

/-- Declarative view of the `onToken` invocation one frame body causes:
at most one, with the fresh token slice only. -/
def frameEvent (parse : Str → Option Json) (d : Str) : Option TokenEvent :=
  if truthy? (frameField parse (strOf "content") d)
     || truthy? (frameField parse (strOf "reasoning_content") d)
  then some ⟨jsOrEmptyStr (frameField parse (strOf "content") d),
             frameField parse (strOf "reasoning_content") d⟩
  else none

end LMStudioClient

/-- Reassembly of a division: the full text whose newline-boundary division
into chunks is `parts.map (· ++ ['\n']) ++ [tail]`. -/
def joinText (parts : List Str) (tail : Str) : Str :=
  parts.foldr (fun p acc => p ++ '\n' :: acc) tail

/-! Auxiliary lemmas about the frame splitter. -/

theorem splitNl_ne_nil (s : Str) : splitNl s ≠ [] := by
  cases s with
  | nil => simp [splitNl]
  | cons c cs =>
    simp only [splitNl]
    cases h : splitNl cs with
    | nil => simp
    | cons l ls => by_cases hc : c = '\n' <;> simp [hc]

theorem splitNl_append (a b : Str) :
    splitNl (a ++ '\n' :: b) = splitNl a ++ splitNl b := by
  induction a with
  | nil =>
    simp only [List.nil_append, splitNl]
    cases h : splitNl b with
    | nil => exact absurd h (splitNl_ne_nil b)
    | cons l ls => simp
  | cons c cs ih =>
    rw [List.cons_append, splitNl, ih, splitNl]
    cases h : splitNl cs with
    | nil => exact absurd h (splitNl_ne_nil cs)
    | cons l ls => by_cases hc : c = '\n' <;> simp [hc]

theorem splitNl_no_newline (s : Str) (h : '\n' ∉ s) : splitNl s = [s] := by
  induction s with
  | nil => rfl
  | cons c cs ih =>
    have hc : ¬(c = '\n') := fun e => h (e ▸ List.mem_cons_self c cs)
    have hcs : '\n' ∉ cs := fun m => h (List.mem_cons_of_mem _ m)
    simp [splitNl, ih hcs, hc]

theorem splitNl_single (s : Str) (h : '\n' ∉ s) :
    splitNl (s ++ ['\n']) = [s, []] := by
  have : s ++ ['\n'] = s ++ '\n' :: ([] : Str) := rfl
  rw [this, splitNl_append, splitNl_no_newline s h]
  rfl

/-! Auxiliary lemmas about the LM Studio / OpenAI-like line loop. -/

namespace LMStudioClient

theorem aux_marker_isPrefixOf (d : Str) :
    dataMarker.isPrefixOf (dataMarker ++ d) = true := by
  simp [dataMarker, strOf, List.isPrefixOf]

theorem aux_marker_drop (d : Str) : (dataMarker ++ d).drop 6 = d := by
  simp [dataMarker, strOf]

theorem aux_lineStep_not_data (parse : Str → Option Json) (st : StreamAcc)
    (l : Str) (h : dataMarker.isPrefixOf l = false) :
    lineStep parse st l = st := by
  simp [lineStep, h]

theorem aux_lineStep_nil (parse : Str → Option Json) (st : StreamAcc) :
    lineStep parse st [] = st := by
  apply aux_lineStep_not_data
  decide

theorem aux_lineStep_done (parse : Str → Option Json) (st : StreamAcc) :
    lineStep parse st (dataMarker ++ strOf "[DONE]") = st := by
  simp [lineStep, aux_marker_isPrefixOf, aux_marker_drop]

theorem aux_lineStep_bad (parse : Str → Option Json) (st : StreamAcc) (d : Str)
    (hp : parse d = none) :
    lineStep parse st (dataMarker ++ d) = st := by
  by_cases hd : d = strOf "[DONE]"
  · subst hd; exact aux_lineStep_done parse st
  · simp [lineStep, aux_marker_isPrefixOf, aux_marker_drop, hd, hp]

theorem aux_lineStep_parsed (parse : Str → Option Json) (st : StreamAcc)
    (d : Str) (parsed : Json) (hd : ¬(d = strOf "[DONE]")) (hp : parse d = some parsed) :
    lineStep parse st (dataMarker ++ d) =
      applyDelta st (deltaField parsed (strOf "content"))
        (deltaField parsed (strOf "reasoning_content")) := by
  simp [lineStep, aux_marker_isPrefixOf, aux_marker_drop, hd, hp]

theorem aux_lineStep_contrib (parse : Str → Option Json) (st : StreamAcc) (d : Str) :
    lineStep parse st (dataMarker ++ d) =
      ⟨st.fullContent ++ contrib parse (strOf "content") d,
       st.fullReasoning ++ contrib parse (strOf "reasoning_content") d,
       st.events ++ (frameEvent parse d).toList⟩ := by
  by_cases hd : d = strOf "[DONE]"
  · subst hd
    rw [aux_lineStep_done]
    simp [contrib, frameField, frameEvent, truthy?]
  · cases hp : parse d with
    | none =>
      rw [aux_lineStep_bad parse st d hp]
      simp [contrib, frameField, frameEvent, hd, hp, truthy?]
    | some parsed =>
      rw [aux_lineStep_parsed parse st d parsed hd hp]
      simp only [applyDelta, contrib, frameField, frameEvent, hd, hp, if_false,
        ite_false, StreamAcc.mk.injEq]
      refine ⟨?_, ?_, ?_⟩ <;> split_ifs <;> simp

theorem aux_chunkStep_mkChunk (parse : Str → Option Json) (st : StreamAcc)
    (d : Str) (hNl : '\n' ∉ d) :
    chunkStep parse st (mkChunk d) = lineStep parse st (dataMarker ++ d) := by
  have hm : '\n' ∉ dataMarker ++ d := by
    intro h
    rcases List.mem_append.1 h with h | h
    · revert h; decide
    · exact hNl h
  have hsplit : splitNl (mkChunk d) = [dataMarker ++ d, []] := by
    have hassoc : mkChunk d = (dataMarker ++ d) ++ ['\n'] := by
      simp [mkChunk]
    rw [hassoc]
    exact splitNl_single _ hm
  rw [chunkStep, hsplit]
  simp [aux_lineStep_nil]

theorem aux_runFrom_cons (parse : Str → Option Json) (st : StreamAcc)
    (c : Str) (cs : List Str) :
    runFrom parse st (c :: cs) = runFrom parse (chunkStep parse st c) cs := rfl

theorem aux_runFrom_append (parse : Str → Option Json) (st : StreamAcc)
    (cs ds : List Str) :
    runFrom parse st (cs ++ ds) = runFrom parse (runFrom parse st cs) ds := by
  simp [runFrom, List.foldl_append]

theorem aux_runFrom_frames (parse : Str → Option Json) (bodies : List Str) :
    ∀ st : StreamAcc, (∀ d ∈ bodies, '\n' ∉ d) →
    runFrom parse st (bodies.map mkChunk) =
      ⟨st.fullContent ++ (bodies.map (contrib parse (strOf "content"))).flatten,
       st.fullReasoning ++ (bodies.map (contrib parse (strOf "reasoning_content"))).flatten,
       st.events ++ bodies.filterMap (frameEvent parse)⟩ := by
  induction bodies with
  | nil => intro st _; simp [runFrom]
  | cons d ds ih =>
    intro st hNl
    have hd : '\n' ∉ d := hNl d (List.mem_cons_self d ds)
    have hds : ∀ x ∈ ds, '\n' ∉ x := fun x hx => hNl x (List.mem_cons_of_mem _ hx)
    rw [List.map_cons, aux_runFrom_cons, aux_chunkStep_mkChunk parse st d hd,
      aux_lineStep_contrib, ih _ hds]
    cases hfe : frameEvent parse d <;>
      simp [hfe, List.filterMap_cons, List.append_assoc]

end LMStudioClient

namespace OllamaClient

theorem aux_o_lineStep_finished (parse : Str → Option Json) (st : LoopState)
    (l : Str) (h : st.finished = true) : lineStep parse st l = st := by
  simp [lineStep, h]

theorem aux_o_foldl_finished (parse : Str → Option Json) (ls : List Str)
    (st : LoopState) (h : st.finished = true) :
    ls.foldl (lineStep parse) st = st := by
  induction ls with
  | nil => rfl
  | cons x xs ih => rw [List.foldl_cons, aux_o_lineStep_finished parse st x h]; exact ih

theorem aux_o_chunkStep_finished (parse : Str → Option Json) (st : LoopState)
    (c : Str) (h : st.finished = true) : chunkStep parse st c = st :=
  aux_o_foldl_finished parse _ st h

theorem aux_o_runFrom_finished (parse : Str → Option Json) (st : LoopState)
    (cs : List Str) (h : st.finished = true) : runFrom parse st cs = st := by
  induction cs with
  | nil => rfl
  | cons c cs ih => rw [runFrom, List.foldl_cons, aux_o_chunkStep_finished parse st c h]; exact ih

theorem aux_o_runFrom_cons (parse : Str → Option Json) (st : LoopState)
    (c : Str) (cs : List Str) :
    runFrom parse st (c :: cs) = runFrom parse (chunkStep parse st c) cs := rfl

theorem aux_o_runFrom_append (parse : Str → Option Json) (st : LoopState)
    (cs ds : List Str) :
    runFrom parse st (cs ++ ds) = runFrom parse (runFrom parse st cs) ds := by
  simp [runFrom, List.foldl_append]

theorem aux_o_lineStep_bad (parse : Str → Option Json) (st : LoopState)
    (l : Str) (hp : parse l = none) : lineStep parse st l = st := by
  by_cases h : st.finished = true
  · simp [lineStep, h]
  · simp [lineStep, h, hp]

theorem aux_o_lineStep_parsed (parse : Str → Option Json) (st : LoopState)
    (l : Str) (data : Json) (hfin : st.finished = false) (hp : parse l = some data) :
    lineStep parse st l =
      ⟨applyDelta st.acc (messageField data (strOf "content"))
         (messageField data (strOf "reasoning_content")),
       truthy? (data.get (strOf "done"))⟩ := by
  simp only [lineStep, hfin, hp, Bool.false_eq_true, if_false, ite_false]
  by_cases hdone : truthy? (data.get (strOf "done")) = true <;> simp [hdone]

theorem aux_o_keep_nil :
    (decide (¬(jsTrim ([] : Str)).isEmpty = true)) = false := rfl

theorem aux_o_chunkStep_split (parse : Str → Option Json) (st : LoopState)
    (a b : Str) :
    chunkStep parse st (a ++ '\n' :: b) =
      chunkStep parse (chunkStep parse st (a ++ ['\n'])) b := by
  have h1 : a ++ ['\n'] = a ++ '\n' :: ([] : Str) := rfl
  simp only [chunkStep, h1, splitNl_append, List.filter_append, List.foldl_append]
  simp [splitNl, jsTrim]

end OllamaClient

namespace LMStudioClient

theorem aux_chunkStep_split (parse : Str → Option Json) (st : StreamAcc)
    (a b : Str) :
    chunkStep parse st (a ++ '\n' :: b) =
      chunkStep parse (chunkStep parse st (a ++ ['\n'])) b := by
  have h1 : a ++ ['\n'] = a ++ '\n' :: ([] : Str) := rfl
  simp only [chunkStep, h1, splitNl_append, List.foldl_append]
  simp [splitNl, aux_lineStep_nil]

end LMStudioClient

theorem aux_foldl_chunks_join {σ : Type} (g : σ → Str → σ)
    (hsplit : ∀ st a b, g st (a ++ '\n' :: b) = g (g st (a ++ ['\n'])) b)
    (parts : List Str) (tail : Str) :
    ∀ st : σ, (parts.map (fun p => p ++ ['\n']) ++ [tail]).foldl g st =
      g st (joinText parts tail) := by
  induction parts with
  | nil => intro st; simp [joinText]
  | cons p ps ih =>
    intro st
    have hjoin : joinText (p :: ps) tail = p ++ '\n' :: joinText ps tail := rfl
    simp only [List.map_cons, List.cons_append, List.foldl_cons, hjoin]
    rw [hsplit st p (joinText ps tail)]
    exact ih (g st (p ++ ['\n']))

theorem aux_run_transparent (parse : Str → Option Json) (c : Str)
    (h : ∀ st, LMStudioClient.chunkStep parse st c = st) (pre post : List Str) :
    LMStudioClient.run parse (pre ++ [c] ++ post) =
      LMStudioClient.run parse (pre ++ post) := by
  have hsingle : ∀ st, LMStudioClient.runFrom parse st [c] = st := by
    intro st
    rw [LMStudioClient.aux_runFrom_cons, h st]
    rfl
  rw [LMStudioClient.run, LMStudioClient.run,
    LMStudioClient.aux_runFrom_append, LMStudioClient.aux_runFrom_append,
    LMStudioClient.aux_runFrom_append, hsingle]

theorem aux_o_run_transparent (parse : Str → Option Json) (c : Str)
    (h : ∀ st, OllamaClient.chunkStep parse st c = st) (pre post : List Str) :
    OllamaClient.run parse (pre ++ [c] ++ post) =
      OllamaClient.run parse (pre ++ post) := by
  have hsingle : ∀ st, OllamaClient.runFrom parse st [c] = st := by
    intro st
    rw [OllamaClient.aux_o_runFrom_cons, h st]
    rfl
  rw [OllamaClient.run, OllamaClient.run,
    OllamaClient.aux_o_runFrom_append, OllamaClient.aux_o_runFrom_append,
    OllamaClient.aux_o_runFrom_append, hsingle]

theorem aux_applyDelta_noop (st : StreamAcc) (c r : Option Json)
    (hc : truthy? c = false) (hr : truthy? r = false) :
    applyDelta st c r = st := by
  simp [applyDelta, hc, hr]

theorem aux_jsAccessOpt_isSome (b : Option Json) (k : Str) :
    (jsAccessOpt b k).isSome = true := by
  cases b with
  | none => rfl
  | some j => cases j <;> rfl

theorem aux_filterMap_length_all_some {α β : Type} (f : α → Option β) :
    ∀ l : List α, (∀ a ∈ l, (f a).isSome = true) →
      (l.filterMap f).length = l.length := by
  intro l
  induction l with
  | nil => intro _; rfl
  | cons a as ih =>
    intro h
    have ha := h a (List.mem_cons_self a as)
    have has : ∀ x ∈ as, (f x).isSome = true :=
      fun x hx => h x (List.mem_cons_of_mem _ hx)
    cases hfa : f a with
    | none => rw [hfa] at ha; simp at ha
    | some b => simp [List.filterMap_cons, hfa, ih has]

theorem aux_contrib_eq_fieldStr (parse : Str → Option Json) (field d : Str)
    (h : isStrOrAbsent (LMStudioClient.frameField parse field d) = true) :
    LMStudioClient.contrib parse field d =
      fieldStr (LMStudioClient.frameField parse field d) := by
  cases hf : LMStudioClient.frameField parse field d with
  | none => simp [LMStudioClient.contrib, hf, fieldStr, truthy?]
  | some j =>
    rw [hf] at h
    cases j with
    | str s =>
      by_cases hs : s.isEmpty = true
      · have : s = [] := List.isEmpty_iff.1 hs
        subst this
        simp [LMStudioClient.contrib, hf, fieldStr, truthy?, Json.truthy]
      · simp [LMStudioClient.contrib, hf, fieldStr, truthy?, Json.truthy,
          coerce?, Json.toJSStr, hs]
    | null => simp [isStrOrAbsent] at h
    | bool b => simp [isStrOrAbsent] at h
    | num n => simp [isStrOrAbsent] at h
    | arr xs => simp [isStrOrAbsent] at h
    | obj fs => simp [isStrOrAbsent] at h

/-- C1: with every SSE `data: ` frame delivered whole within one chunk and
all delta fields strings (or absent), the streaming read loop of the LM
Studio client — and the verbatim-identical one of the OpenAI-like client —
accumulates `content` equal to the concatenation, in the order received, of
every non-empty `choices[0].delta.content`, accumulates reasoning
analogously, and invokes `onToken` exactly once per frame carrying non-empty
content or reasoning, each time with only that frame's fresh token slice;
the resolved value hands back exactly these accumulators. -/
theorem C1_streaming_concatenation
    (parse : Str → Option Json) (bodies : List Str)
    (hNl : ∀ d ∈ bodies, '\n' ∉ d)
    (hStr : ∀ d ∈ bodies,
      isStrOrAbsent (LMStudioClient.frameField parse (strOf "content") d) = true ∧
      isStrOrAbsent (LMStudioClient.frameField parse (strOf "reasoning_content") d) = true) :
    (LMStudioClient.run parse (bodies.map LMStudioClient.mkChunk)).fullContent =
      (bodies.map (fun d =>
        fieldStr (LMStudioClient.frameField parse (strOf "content") d))).flatten
    ∧ (LMStudioClient.run parse (bodies.map LMStudioClient.mkChunk)).fullReasoning =
      (bodies.map (fun d =>
        fieldStr (LMStudioClient.frameField parse (strOf "reasoning_content") d))).flatten
    ∧ (LMStudioClient.run parse (bodies.map LMStudioClient.mkChunk)).events =
      bodies.filterMap (LMStudioClient.frameEvent parse)
    ∧ LMStudioClient.sendMessageStream parse
        (.success ⟨true, bodies.map LMStudioClient.mkChunk, .eof⟩) =
      (.ok (LMStudioClient.run parse (bodies.map LMStudioClient.mkChunk)).result,
       (LMStudioClient.run parse (bodies.map LMStudioClient.mkChunk)).events)
    ∧ OpenAILikeClient.run = LMStudioClient.run
    ∧ OpenAILikeClient.sendMessageStream = LMStudioClient.sendMessageStream := by
  have hrun := LMStudioClient.aux_runFrom_frames parse bodies StreamAcc.init hNl
  have hc : bodies.map (LMStudioClient.contrib parse (strOf "content")) =
      bodies.map (fun d => fieldStr (LMStudioClient.frameField parse (strOf "content") d)) :=
    List.map_congr_left (fun d hd => aux_contrib_eq_fieldStr parse _ d (hStr d hd).1)
  have hr : bodies.map (LMStudioClient.contrib parse (strOf "reasoning_content")) =
      bodies.map (fun d => fieldStr (LMStudioClient.frameField parse (strOf "reasoning_content") d)) :=
    List.map_congr_left (fun d hd => aux_contrib_eq_fieldStr parse _ d (hStr d hd).2)
  rw [hc, hr] at hrun
  have h1 : LMStudioClient.run parse (bodies.map LMStudioClient.mkChunk) =
      ⟨(bodies.map (fun d =>
          fieldStr (LMStudioClient.frameField parse (strOf "content") d))).flatten,
        (bodies.map (fun d =>
          fieldStr (LMStudioClient.frameField parse (strOf "reasoning_content") d))).flatten,
        bodies.filterMap (LMStudioClient.frameEvent parse)⟩ := by
    rw [LMStudioClient.run, hrun]
    simp [StreamAcc.init]
  refine ⟨by rw [h1], by rw [h1], by rw [h1], rfl, rfl, rfl⟩

/-- C1 witness: the spec's own example stream (`Hel`, `lo`, plus a reasoning
frame) with the fixture parse: content `Hello`, reasoning `Think`. -/
theorem C1_witness :
    ((∀ d ∈ [bodyHel, bodyLo, bodyThink], '\n' ∉ d) ∧
     (∀ d ∈ [bodyHel, bodyLo, bodyThink],
        isStrOrAbsent (LMStudioClient.frameField parseFix (strOf "content") d) = true ∧
        isStrOrAbsent (LMStudioClient.frameField parseFix (strOf "reasoning_content") d) = true)) ∧
    (LMStudioClient.run parseFix
      ([bodyHel, bodyLo, bodyThink].map LMStudioClient.mkChunk)).fullContent = strOf "Hello" ∧
    (LMStudioClient.run parseFix
      ([bodyHel, bodyLo, bodyThink].map LMStudioClient.mkChunk)).fullReasoning = strOf "Think" :=
  ⟨⟨by decide, by decide⟩, by
    have h := C1_streaming_concatenation parseFix [bodyHel, bodyLo, bodyThink]
      (by decide) (by decide)
    exact ⟨by rw [h.1]; decide, by rw [h.2.1]; decide⟩⟩

/-- C2 counterexample: the two chunk divisions
`["data: {"choices":[{"delta":{"con", "tent":"Hello"}}]}\n"]` and
`["data: {"choices":[{"delta":{"content":"Hello"}}]}\n"]` carry the same
text, but the first division splits the frame line across the two chunks and
yields empty content (the fragment is dropped — there is no pending buffer),
while the whole-frame division yields `Hello`; so the frames produced are
not identical for every division of the input text into chunks. -/
theorem C2_counterexample :
    (strOf "data: " ++ bodyHelloCutA) ++ strOf "tent\":\"Hello\"\x7d\x7d]\x7d\n" =
      strOf "data: " ++ bodyHello ++ ['\n']
    ∧ ¬((LMStudioClient.run parseFix
          [strOf "data: " ++ bodyHelloCutA,
           strOf "tent\":\"Hello\"\x7d\x7d]\x7d\n"]).fullContent =
        (LMStudioClient.run parseFix
          [strOf "data: " ++ bodyHello ++ ['\n']]).fullContent) := by
  decide

/-- C2 (amended): the clients keep no pending buffer — each chunk's tail
after its last newline is consumed at once, so a frame line split across two
chunks is lost (see the counterexample).  What does hold is invariance under
every division whose chunk boundaries sit at newline boundaries: for any
such division of the text the read loops of all three clients produce the
same final state as processing the undivided text. -/
theorem C2_amended_newline_division_invariance
    (parse : Str → Option Json) (parts : List Str) (tail : Str) :
    LMStudioClient.run parse (parts.map (fun p => p ++ ['\n']) ++ [tail]) =
      LMStudioClient.run parse [joinText parts tail]
    ∧ OllamaClient.run parse (parts.map (fun p => p ++ ['\n']) ++ [tail]) =
      OllamaClient.run parse [joinText parts tail]
    ∧ OpenAILikeClient.run = LMStudioClient.run := by
  refine ⟨?_, ?_, rfl⟩
  · exact aux_foldl_chunks_join (LMStudioClient.chunkStep parse)
      (fun st a b => LMStudioClient.aux_chunkStep_split parse st a b)
      parts tail StreamAcc.init
  · exact aux_foldl_chunks_join (OllamaClient.chunkStep parse)
      (fun st a b => OllamaClient.aux_o_chunkStep_split parse st a b)
      parts tail OllamaClient.LoopState.init

/-- C3 counterexample: in SSE mode the `[DONE]` frame is skipped with
`continue`, not `break` — a `data:` frame following it in the stream IS
processed (content `Hello`, one `onToken` call); and in NDJSON mode the
`done: true` frame's own `message.content` (here `"!"`) IS appended before
the early return, so "no part of that frame is appended" fails as well. -/
theorem C3_counterexample :
    (LMStudioClient.run parseFix
      [strOf "data: [DONE]\ndata: " ++ bodyHello ++ ['\n']]).fullContent = strOf "Hello"
    ∧ (LMStudioClient.run parseFix
      [strOf "data: [DONE]\ndata: " ++ bodyHello ++ ['\n']]).events.length = 1
    ∧ ¬(strOf "Hello" = ([] : Str))
    ∧ (OllamaClient.run parseFix
      [lineHi ++ ['\n'], lineBang ++ ['\n']]).acc.fullContent = strOf "Hi!"
    ∧ ¬(strOf "Hi!" = strOf "Hi") := by
  decide

/-- C3 (amended): the termination frames are never themselves treated as
ordinary token text, but their terminating effect differs by mode.  In SSE
mode a `data: [DONE]` line leaves the accumulator untouched — and the stream
is NOT ended: a `[DONE]` chunk is fully transparent, later frames are still
processed.  In NDJSON mode a frame whose record sets `done = true` first has
its own `message` fields accumulated normally and then ends the loop: once
`finished`, no later chunk or line changes the state. -/
theorem C3_amended_termination_sentinel :
    (∀ (parse : Str → Option Json) (st : StreamAcc),
      LMStudioClient.lineStep parse st (strOf "data: [DONE]") = st)
    ∧ (∀ (parse : Str → Option Json) (pre post : List Str),
      LMStudioClient.run parse (pre ++ [strOf "data: [DONE]\n"] ++ post) =
        LMStudioClient.run parse (pre ++ post))
    ∧ (∀ (parse : Str → Option Json) (st : OllamaClient.LoopState) (l : Str)
        (data : Json), st.finished = false → parse l = some data →
        truthy? (Json.get data (strOf "done")) = true →
        OllamaClient.lineStep parse st l =
          ⟨applyDelta st.acc (OllamaClient.messageField data (strOf "content"))
             (OllamaClient.messageField data (strOf "reasoning_content")), true⟩)
    ∧ (∀ (parse : Str → Option Json) (st : OllamaClient.LoopState)
        (cs : List Str), st.finished = true →
        OllamaClient.runFrom parse st cs = st) := by
  have hdone : ∀ (parse : Str → Option Json) (st : StreamAcc),
      LMStudioClient.lineStep parse st (strOf "data: [DONE]") = st := by
    intro parse st
    have he : strOf "data: [DONE]" =
        LMStudioClient.dataMarker ++ strOf "[DONE]" := rfl
    rw [he]
    exact LMStudioClient.aux_lineStep_done parse st
  refine ⟨hdone, ?_, ?_, ?_⟩
  · intro parse pre post
    have hchunk : ∀ st : StreamAcc,
        LMStudioClient.chunkStep parse st (strOf "data: [DONE]\n") = st := by
      intro st
      have hs : splitNl (strOf "data: [DONE]\n") =
          [strOf "data: [DONE]", []] := rfl
      rw [LMStudioClient.chunkStep, hs]
      simp [hdone, LMStudioClient.aux_lineStep_nil]
    have hsingle : ∀ st : StreamAcc,
        LMStudioClient.runFrom parse st [strOf "data: [DONE]\n"] = st := by
      intro st
      rw [LMStudioClient.aux_runFrom_cons, hchunk st]
      rfl
    rw [LMStudioClient.run, LMStudioClient.run,
      LMStudioClient.aux_runFrom_append, LMStudioClient.aux_runFrom_append,
      LMStudioClient.aux_runFrom_append, hsingle]
  · intro parse st l data hfin hp hdata
    rw [OllamaClient.aux_o_lineStep_parsed parse st l data hfin hp, hdata]
  · intro parse st cs h
    exact OllamaClient.aux_o_runFrom_finished parse st cs h

/-- C3 witness: the NDJSON conjuncts applied to the fixture's `done: true`
frame `{"message":{"content":"!"},"done":true}` from the initial state. -/
theorem C3_witness :
    (OllamaClient.LoopState.init.finished = false
     ∧ parseFix lineBang = some (ollamaFrameJson (.str (strOf "!")) true)
     ∧ truthy? (Json.get (ollamaFrameJson (.str (strOf "!")) true) (strOf "done")) = true)
    ∧ OllamaClient.lineStep parseFix OllamaClient.LoopState.init lineBang =
      ⟨applyDelta OllamaClient.LoopState.init.acc
         (OllamaClient.messageField (ollamaFrameJson (.str (strOf "!")) true) (strOf "content"))
         (OllamaClient.messageField (ollamaFrameJson (.str (strOf "!")) true)
           (strOf "reasoning_content")), true⟩ :=
  ⟨⟨rfl, rfl, by decide⟩,
   C3_amended_termination_sentinel.2.2.1 parseFix OllamaClient.LoopState.init
     lineBang (ollamaFrameJson (.str (strOf "!")) true) rfl rfl (by decide)⟩

/-- C4: once a parsed NDJSON frame sets `done: true`, the Ollama read loop
has returned: appending any further chunks to the source changes neither the
state nor the resolved outcome, and for the spec's two-line example the
content is `Hi!` even with a third line present. -/
theorem C4_ndjson_done_stops
    (parse : Str → Option Json) (cs : List Str)
    (hfin : (OllamaClient.run parse cs).finished = true) :
    (∀ extra : List Str,
      OllamaClient.run parse (cs ++ extra) = OllamaClient.run parse cs)
    ∧ (∀ (extra : List Str) (ending : BodyEnd),
      OllamaClient.sendMessageStream parse (.success ⟨true, cs ++ extra, ending⟩) =
        (.ok (OllamaClient.run parse cs).acc.result,
         (OllamaClient.run parse cs).acc.events))
    ∧ (OllamaClient.run parseFix
        [lineHi ++ ['\n'], lineBang ++ ['\n'], lineAfter ++ ['\n']]).acc.fullContent =
      strOf "Hi!" := by
  have habs : ∀ extra : List Str,
      OllamaClient.run parse (cs ++ extra) = OllamaClient.run parse cs := by
    intro extra
    rw [OllamaClient.run, OllamaClient.aux_o_runFrom_append]
    exact OllamaClient.aux_o_runFrom_finished parse _ extra hfin
  refine ⟨habs, ?_, by decide⟩
  intro extra ending
  simp [OllamaClient.sendMessageStream, habs extra, hfin]

/-- C4 witness: the spec's two-line NDJSON input followed by a third line;
the third line leaves the state untouched. -/
theorem C4_witness :
    (OllamaClient.run parseFix [lineHi ++ ['\n'], lineBang ++ ['\n']]).finished = true
    ∧ OllamaClient.run parseFix
        ([lineHi ++ ['\n'], lineBang ++ ['\n']] ++ [lineAfter ++ ['\n']]) =
      OllamaClient.run parseFix [lineHi ++ ['\n'], lineBang ++ ['\n']] :=
  ⟨by decide,
   (C4_ndjson_done_stops parseFix [lineHi ++ ['\n'], lineBang ++ ['\n']]
     (by decide)).1 [lineAfter ++ ['\n']]⟩

/-- C5 counterexample: the frame `{"choices":[{"delta":{"content":5}}]}`
carries the non-string (numeric) content 5; the claim says it is treated as
the empty string with no accumulation and no `onToken`, but the code's
truthiness test accepts it: `"5"` is appended to the accumulator (JavaScript
string coercion by `+=`) and `onToken` fires once. -/
theorem C5_counterexample :
    (LMStudioClient.run parseFix
      [strOf "data: " ++ bodyNum ++ ['\n']]).fullContent = strOf "5"
    ∧ (LMStudioClient.run parseFix
      [strOf "data: " ++ bodyNum ++ ['\n']]).events.length = 1
    ∧ ¬(strOf "5" = ([] : Str)) := by
  decide

/-- C5 (amended): a content or reasoning field that is absent or falsy
(absent, `null`, `false`, `0`, or the empty string) contributes nothing, no
`onToken` fires, and no error is raised — but a truthy value is not required
to be a string: it is appended after JavaScript string coercion, with one
`onToken` invocation carrying the raw value, in all three clients. -/
theorem C5_amended_field_handling :
    (∀ (parse : Str → Option Json) (st : StreamAcc) (d : Str) (parsed : Json),
      parse d = some parsed →
      truthy? (LMStudioClient.deltaField parsed (strOf "content")) = false →
      truthy? (LMStudioClient.deltaField parsed (strOf "reasoning_content")) = false →
      LMStudioClient.lineStep parse st (LMStudioClient.dataMarker ++ d) = st)
    ∧ (∀ (st : StreamAcc) (c r : Option Json), truthy? c = true →
      (applyDelta st c r).fullContent = st.fullContent ++ coerce? c
      ∧ (applyDelta st c r).events = st.events ++ [⟨jsOrEmptyStr c, r⟩])
    ∧ (∀ (st : StreamAcc) (c r : Option Json), truthy? r = true →
      (applyDelta st c r).fullReasoning = st.fullReasoning ++ coerce? r)
    ∧ (∀ (parse : Str → Option Json) (st : OllamaClient.LoopState) (l : Str)
        (data : Json), parse l = some data →
      truthy? (OllamaClient.messageField data (strOf "content")) = false →
      truthy? (OllamaClient.messageField data (strOf "reasoning_content")) = false →
      truthy? (Json.get data (strOf "done")) = false →
      OllamaClient.lineStep parse st l = st) := by
  refine ⟨?_, ?_, ?_, ?_⟩
  · intro parse st d parsed hp hc hr
    by_cases hd : d = strOf "[DONE]"
    · subst hd; exact LMStudioClient.aux_lineStep_done parse st
    · rw [LMStudioClient.aux_lineStep_parsed parse st d parsed hd hp]
      exact aux_applyDelta_noop st _ _ hc hr
  · intro st c r hc
    constructor
    · simp [applyDelta, hc]
    · simp [applyDelta, hc]
  · intro st c r hr
    simp [applyDelta, hr]
  · intro parse st l data hp hc hr hdone
    by_cases hfin : st.finished = true
    · exact OllamaClient.aux_o_lineStep_finished parse st l hfin
    · have hfin' : st.finished = false := by
        cases h : st.finished
        · rfl
        · exact absurd h hfin
      rw [OllamaClient.aux_o_lineStep_parsed parse st l data hfin' hp, hdone,
        aux_applyDelta_noop st.acc _ _ hc hr, ← hfin']

/-- C5 witness: the frame with empty (falsy) content is a no-op in the LM
Studio line step; a truthy numeric content appends its coercion. -/
theorem C5_witness :
    (parseFix bodyEmpty = some (deltaContentJson (.str []))
     ∧ truthy? (LMStudioClient.deltaField (deltaContentJson (.str []))
         (strOf "content")) = false
     ∧ truthy? (LMStudioClient.deltaField (deltaContentJson (.str []))
         (strOf "reasoning_content")) = false
     ∧ truthy? (some (Json.num 5)) = true)
    ∧ LMStudioClient.lineStep parseFix StreamAcc.init
        (LMStudioClient.dataMarker ++ bodyEmpty) = StreamAcc.init
    ∧ (applyDelta StreamAcc.init (some (Json.num 5)) none).fullContent =
        StreamAcc.init.fullContent ++ coerce? (some (Json.num 5)) :=
  ⟨⟨rfl, by decide, by decide, by decide⟩,
   C5_amended_field_handling.1 parseFix StreamAcc.init bodyEmpty
     (deltaContentJson (.str [])) rfl (by decide) (by decide),
   (C5_amended_field_handling.2.1 StreamAcc.init (some (Json.num 5)) none
     (by decide)).1⟩

/-- C6: a frame whose body `JSON.parse` rejects is skipped silently in all
three clients — the line step leaves the state unchanged (no accumulation,
no `onToken`, and the step functions are total, so nothing is thrown), and
the surrounding stream is processed exactly as if the malformed frame were
not there. -/
theorem C6_malformed_json_skipped :
    (∀ (parse : Str → Option Json) (st : StreamAcc) (d : Str), parse d = none →
      LMStudioClient.lineStep parse st (LMStudioClient.dataMarker ++ d) = st)
    ∧ (∀ (parse : Str → Option Json) (pre post : List Str) (d : Str),
      '\n' ∉ d → parse d = none →
      LMStudioClient.run parse (pre ++ [LMStudioClient.mkChunk d] ++ post) =
        LMStudioClient.run parse (pre ++ post))
    ∧ (∀ (parse : Str → Option Json) (st : OllamaClient.LoopState) (l : Str),
      parse l = none → OllamaClient.lineStep parse st l = st)
    ∧ (∀ (parse : Str → Option Json) (pre post : List Str) (l : Str),
      '\n' ∉ l → parse l = none →
      OllamaClient.run parse (pre ++ [l ++ ['\n']] ++ post) =
        OllamaClient.run parse (pre ++ post))
    ∧ OpenAILikeClient.run = LMStudioClient.run := by
  refine ⟨?_, ?_, ?_, ?_, rfl⟩
  · intro parse st d hp
    exact LMStudioClient.aux_lineStep_bad parse st d hp
  · intro parse pre post d hNl hp
    refine aux_run_transparent parse _ ?_ pre post
    intro st
    rw [LMStudioClient.aux_chunkStep_mkChunk parse st d hNl]
    exact LMStudioClient.aux_lineStep_bad parse st d hp
  · intro parse st l hp
    exact OllamaClient.aux_o_lineStep_bad parse st l hp
  · intro parse pre post l hNl hp
    refine aux_o_run_transparent parse _ ?_ pre post
    intro st
    rw [OllamaClient.chunkStep, splitNl_single l hNl]
    have hnil : (!(jsTrim ([] : Str)).isEmpty) = false := rfl
    by_cases hk : (!(jsTrim l).isEmpty) = true
    · simp [List.filter_cons, hk, hnil,
        OllamaClient.aux_o_lineStep_bad parse st l hp]
    · simp [List.filter_cons, hk, hnil]

/-- C6 witness: the malformed body `not json` between two good frames with
the fixture parse: the stream result equals the one without it. -/
theorem C6_witness :
    ('\n' ∉ strOf "not json" ∧ parseFix (strOf "not json") = none)
    ∧ LMStudioClient.run parseFix
        ([LMStudioClient.mkChunk bodyHel] ++ [LMStudioClient.mkChunk (strOf "not json")]
          ++ [LMStudioClient.mkChunk bodyLo]) =
      LMStudioClient.run parseFix
        ([LMStudioClient.mkChunk bodyHel] ++ [LMStudioClient.mkChunk bodyLo]) :=
  ⟨⟨by decide, rfl⟩,
   C6_malformed_json_skipped.2.1 parseFix [LMStudioClient.mkChunk bodyHel]
     [LMStudioClient.mkChunk bodyLo] (strOf "not json") (by decide) rfl⟩

/-- C7: if the abort signal fires after N contentful frames have been
delivered and before the stream ends, the streaming `sendMessage` of the LM
Studio client (and the identical OpenAI-like one) settles as the
`AbortError` rejection — a cancellation outcome distinct from success and
from the other failure kinds, never a partial result returned as success;
`onToken` was invoked exactly N times, only for the delivered frames; and
the chat UI appends no visible error message for this error name. -/
theorem C7_cancellation_outcome
    (parse : Str → Option Json) (bodies : List Str)
    (hNl : ∀ d ∈ bodies, '\n' ∉ d)
    (hTok : ∀ d ∈ bodies,
      truthy? (LMStudioClient.frameField parse (strOf "content") d) = true) :
    (LMStudioClient.sendMessageStream parse
        (.success ⟨true, bodies.map LMStudioClient.mkChunk, .abort⟩)).1 =
      .error .abortError
    ∧ (LMStudioClient.sendMessageStream parse
        (.success ⟨true, bodies.map LMStudioClient.mkChunk, .abort⟩)).2 =
      (LMStudioClient.run parse (bodies.map LMStudioClient.mkChunk)).events
    ∧ (LMStudioClient.sendMessageStream parse
        (.success ⟨true, bodies.map LMStudioClient.mkChunk, .abort⟩)).2.length =
      bodies.length
    ∧ ChatInterface.appendsErrorMessage .abortError = false
    ∧ ¬(SendError.abortError = .httpError)
    ∧ ¬(SendError.abortError = .fetchError)
    ∧ OpenAILikeClient.sendMessageStream = LMStudioClient.sendMessageStream := by
  have hev : (LMStudioClient.run parse (bodies.map LMStudioClient.mkChunk)).events =
      bodies.filterMap (LMStudioClient.frameEvent parse) := by
    rw [LMStudioClient.run,
      LMStudioClient.aux_runFrom_frames parse bodies StreamAcc.init hNl]
    simp [StreamAcc.init]
  have hsome : ∀ d ∈ bodies, (LMStudioClient.frameEvent parse d).isSome = true := by
    intro d hd
    simp [LMStudioClient.frameEvent, hTok d hd]
  refine ⟨rfl, rfl, ?_, rfl, by decide, by decide, rfl⟩
  rw [show (LMStudioClient.sendMessageStream parse
      (.success ⟨true, bodies.map LMStudioClient.mkChunk, .abort⟩)).2 =
    (LMStudioClient.run parse (bodies.map LMStudioClient.mkChunk)).events from rfl, hev]
  exact aux_filterMap_length_all_some _ bodies hsome

/-- C7 witness: aborting after the two `Hel`/`lo` frames: `AbortError`
outcome and exactly two callback invocations. -/
theorem C7_witness :
    ((∀ d ∈ [bodyHel, bodyLo], '\n' ∉ d)
     ∧ (∀ d ∈ [bodyHel, bodyLo],
        truthy? (LMStudioClient.frameField parseFix (strOf "content") d) = true))
    ∧ (LMStudioClient.sendMessageStream parseFix
        (.success ⟨true, [bodyHel, bodyLo].map LMStudioClient.mkChunk, .abort⟩)).1 =
      .error .abortError
    ∧ (LMStudioClient.sendMessageStream parseFix
        (.success ⟨true, [bodyHel, bodyLo].map LMStudioClient.mkChunk, .abort⟩)).2.length = 2 :=
  ⟨⟨by decide, by decide⟩,
   (C7_cancellation_outcome parseFix [bodyHel, bodyLo] (by decide) (by decide)).1,
   (C7_cancellation_outcome parseFix [bodyHel, bodyLo] (by decide) (by decide)).2.2.1⟩

/-- C8: for every response with a non-2xx status (`response.ok` false), the
`sendMessage` of all three clients — streaming and non-streaming alike —
rejects with the HTTP error, hands back no partial result, and invokes no
callback. -/
theorem C8_non_2xx_rejects
    (parse : Str → Option Json) (chunks : List Str) (ending : BodyEnd)
    (body : Option Json) :
    LMStudioClient.sendMessageStream parse (.success ⟨false, chunks, ending⟩) =
      (.error .httpError, [])
    ∧ OllamaClient.sendMessageStream parse (.success ⟨false, chunks, ending⟩) =
      (.error .httpError, [])
    ∧ OpenAILikeClient.sendMessageStream parse (.success ⟨false, chunks, ending⟩) =
      (.error .httpError, [])
    ∧ LMStudioClient.sendMessageNoStream (.success false body) =
      (.error .httpError, [])
    ∧ OllamaClient.sendMessageNoStream (.success false body) =
      (.error .httpError, [])
    ∧ OpenAILikeClient.sendMessageNoStream (.success false body) =
      (.error .httpError, []) :=
  ⟨rfl, rfl, rfl, rfl, rfl, rfl⟩

/-- C9: without an `onToken` callback the body is parsed once as a single
JSON document and the first choice's message is extracted: the spec's
example document yields content `X`, reasoning `Y`, and the non-streaming
branch contains no callback invocation at all; a message whose `content`
field is absent yields the empty string. -/
theorem C9_non_streaming_path
    (data : Json) (choices c0 msg : Option Json)
    (hch : jsAccess (some data) (strOf "choices") = some choices)
    (hc0 : jsIndex0 choices = some c0)
    (hmsg : jsAccessOpt c0 (strOf "message") = some msg)
    (hcontent : jsAccessOpt msg (strOf "content") = some none) :
    (∃ r, LMStudioClient.nonStreamingExtract data = some r ∧ r.content = .str [])
    ∧ LMStudioClient.sendMessageNoStream (.success true (some docXY)) =
      (.ok ⟨.str (strOf "X"), some (.str (strOf "Y"))⟩, [])
    ∧ (∀ f, (LMStudioClient.sendMessageNoStream f).2 = [])
    ∧ OpenAILikeClient.sendMessageNoStream = LMStudioClient.sendMessageNoStream := by
  refine ⟨?_, rfl, ?_, rfl⟩
  · have hr := aux_jsAccessOpt_isSome msg (strOf "reasoning_content")
    obtain ⟨v, hv⟩ := Option.isSome_iff_exists.1 hr
    refine ⟨⟨jsOrEmptyStr none, v⟩, ?_, rfl⟩
    simp [LMStudioClient.nonStreamingExtract, hch, hc0, hmsg, hcontent, hv]
  · intro f
    cases f with
    | netError => rfl
    | success ok body =>
      cases ok
      · rfl
      · cases body with
        | none => rfl
        | some data =>
          cases h : LMStudioClient.nonStreamingExtract data <;>
            simp [LMStudioClient.sendMessageNoStream, h]

/-- C9 witness: the document lacking a `content` field yields the empty
string as content. -/
theorem C9_witness :
    (jsAccess (some docNoContent) (strOf "choices") =
        some (some (.arr [.obj [(strOf "message", .obj [])]]))
     ∧ jsIndex0 (some (.arr [.obj [(strOf "message", .obj [])]])) =
        some (some (.obj [(strOf "message", .obj [])]))
     ∧ jsAccessOpt (some (.obj [(strOf "message", .obj [])])) (strOf "message") =
        some (some (.obj []))
     ∧ jsAccessOpt (some (.obj [])) (strOf "content") = some none)
    ∧ (∃ r, LMStudioClient.nonStreamingExtract docNoContent = some r
        ∧ r.content = .str []) :=
  ⟨⟨rfl, rfl, rfl, rfl⟩,
   (C9_non_streaming_path docNoContent
     (some (.arr [.obj [(strOf "message", .obj [])]]))
     (some (.obj [(strOf "message", .obj [])]))
     (some (.obj [])) rfl rfl rfl rfl).1⟩

/-- C10: `OllamaClient.getModels` never rejects — a network error or a
non-2xx status resolves with the empty list — while `LMStudioClient` and
`OpenAILikeClient` re-throw those same failures to their caller. -/
theorem C10_getModels_failure_modes (body : Option Json) :
    OllamaClient.getModels .netError = []
    ∧ OllamaClient.getModels (.success false body) = []
    ∧ LMStudioClient.getModels .netError = .error .fetchError
    ∧ LMStudioClient.getModels (.success false body) = .error .httpError
    ∧ OpenAILikeClient.getModels = LMStudioClient.getModels :=
  ⟨rfl, rfl, rfl, rfl, rfl⟩

end SuperEmma

